import Mathlib

/-!
Verification of the Capitalyx client-side achievement engine.

The development shallowly embeds the reactive achievement/gamification core
of the application (the `useFinancialData` merge view, the auto-restore
catalog-integrity guard, and the `runEngine` evaluation pass of the main
`App` effect) as pure Lean functions and transition systems, and settles
the specification's claims about them.

Sources embedded:
 - the `Achievement`, `Transaction`, `UserStats` data model (types module);
 - `mergedAchievements` (the `useMemo` join of the global catalog with the
   per-user unlock ledger);
 - the achievement-engine `useEffect`: the `isRestoringRef` auto-restore
   guard, the empty-set early returns, the `runEngine` pass with its
   per-title progress computation and its unlock writes/toasts, and the
   3000 ms debounced scheduling with `clearTimeout` cleanup.
-/

namespace Capitalyx

/-- The `TransactionType` enum from the types module (`income` / `expense`). -/
inductive TransactionType
  | income
  | expense
deriving DecidableEq, Repr

/-- A dated monetary record, as in the `Transaction` interface.  Only the
fields the engine reads are carried (`type`, `category`, `description`),
plus identification and amount for concreteness.  Amounts are embedded as
rationals. -/
structure Transaction where
  id : String
  description : String
  amount : ℚ
  type : TransactionType
  category : String
  date : String
deriving DecidableEq, Repr

/-- The `UserStats` record from the types module; optional fields are `Option`s,
mirroring the TS optional (possibly `undefined`) fields. -/
structure UserStats where
  hasUsedAI : Option Bool := none
  aiUsageCount : Option Nat := none
  hasSimulatedFuture : Option Bool := none
  hasUsedCalendar : Option Bool := none
deriving DecidableEq, Repr

/-- The `AchievementCondition` union type of the types module. -/
inductive AchievementCondition
  | transaction_count
  | income_count
  | expense_count
  | total_balance
  | manual
  | ai_usage
deriving DecidableEq, Repr

/-- The `Achievement` interface (catalog entry together with the state
fields that the merge view overrides).  Optional TS fields are `Option`s;
`progress` defaults to `0` as the merge view supplies it. -/
structure Achievement where
  id : String
  title : String
  description : String
  conditionType : Option AchievementCondition := none
  conditionValue : Option ℚ := none
  isUnlocked : Bool
  unlockedAt : Option String := none
  progress : ℚ := 0
  isSystem : Option Bool := none
deriving DecidableEq, Repr

/-- A per-user ledger entry as read by the merge view
(`userAchievements[ach.id]` with fields `isUnlocked`, `unlockedAt`,
`progress`). -/
structure UnlockRecord where
  isUnlocked : Bool
  unlockedAt : Option String := none
  progress : ℚ := 0
deriving DecidableEq, Repr

/-- The slice of the aggregated domain snapshot that `runEngine` reads:
the transaction list and the user statistics record. -/
structure DomainSnapshot where
  transactions : List Transaction
  stats : UserStats
deriving DecidableEq, Repr

/-! ## Achievement Merge View

Embeds the `mergedAchievements` `useMemo` of `useFinancialData`:

    globalAchievements.map(ach => ({
        ...ach,
        isUnlocked: userAchievements[ach.id]?.isUnlocked || false,
        unlockedAt: userAchievements[ach.id]?.unlockedAt,
        progress: userAchievements[ach.id]?.progress || 0
    }));

The per-user ledger object is embedded as an association list keyed by
achievement id (JS object keys are unique; `List.lookup` returns the
first, hence the, binding). -/

/-- The merge view: every catalog entry is mapped to one merged record,
carrying the ledger entry's state when present and defaulting to
locked / no timestamp / progress 0 when absent. -/
def mergedAchievements (catalog : List Achievement)
    (ledger : List (String × UnlockRecord)) : List Achievement :=
  catalog.map fun ach =>
    { ach with
      isUnlocked := ((ledger.lookup ach.id).map (·.isUnlocked)).getD false
      unlockedAt := (ledger.lookup ach.id).bind (·.unlockedAt)
      progress := ((ledger.lookup ach.id).map (·.progress)).getD 0 }

/-! ## Rule Evaluation Engine: snapshot predicates

Embeds the local constants computed at the top of `runEngine`. -/

/-- Embeds `transactions.filter(t => t.type === TransactionType.INCOME).length`. -/
def incomeCount (snap : DomainSnapshot) : Nat :=
  (snap.transactions.filter fun t => t.type == TransactionType.income).length

/-- Embeds `transactions.filter(t => t.type === TransactionType.EXPENSE).length`. -/
def expenseCount (snap : DomainSnapshot) : Nat :=
  (snap.transactions.filter fun t => t.type == TransactionType.expense).length

/-- JS `toLowerCase` restricted to the characters relevant here: ASCII
letters are lowered and the accented uppercase `Á` (the only non-ASCII
letter of the search pattern) maps to `á`. -/
def jsToLowerChar (c : Char) : Char :=
  if c = 'Á' then 'á' else c.toLower

/-- Character-wise JS-style `toLowerCase`. -/
def jsToLower (s : String) : String :=
  s.map jsToLowerChar

/-- JS `String.prototype.includes`: `pat` occurs as a substring of `s`
exactly when splitting on it produces at least two pieces. -/
def jsIncludes (s pat : String) : Bool :=
  decide (2 ≤ (s.splitOn pat).length)

/-- Embeds `transactions.some(t => t.category === 'Salário' ||
t.description.toLowerCase().includes('salário'))` -/
def hasSalary (snap : DomainSnapshot) : Bool :=
  snap.transactions.any fun t =>
    t.category == "Salário" || jsIncludes (jsToLower t.description) "salário"

/-- Embeds `userStats.hasSimulatedFuture || userStats.hasUsedCalendar`
(absent fields are `undefined`, hence falsy). -/
def hasUsedBeta (snap : DomainSnapshot) : Bool :=
  snap.stats.hasSimulatedFuture.getD false || snap.stats.hasUsedCalendar.getD false

/-- Embeds `(userStats.aiUsageCount || 0) > 0`. -/
def hasUsedAI (snap : DomainSnapshot) : Bool :=
  decide (0 < snap.stats.aiUsageCount.getD 0)

/-! ## Rule Evaluation Engine: per-achievement progress

Embeds the `currentProgress` if/else chain of `runEngine`.  The dispatch
is on the achievement **title** string; the arithmetic `(count / 5) * 100`
is embedded in exact rational arithmetic (for the natural-number counts
involved the JS double computation yields the same value: the exact value
`20·count` is representable and within rounding distance of the computed
product). -/

/-- The `currentProgress` value as computed by `runEngine` for one achievement:
starts at 0 and is replaced by the branch matching the title, if any. -/
def computeProgress (snap : DomainSnapshot) (ach : Achievement) : ℚ :=
  if ach.title = "Mestre das Receitas" then (incomeCount snap : ℚ) / 5 * 100
  else if ach.title = "Controlador de Gastos" then (expenseCount snap : ℚ) / 5 * 100
  else if ach.title = "Trabalhador Honesto" then if hasSalary snap then 100 else 0
  else if ach.title = "Explorador Beta" then if hasUsedBeta snap then 100 else 0
  else if ach.title = "Capitalyx AI" then if hasUsedAI snap then 100 else 0
  else 0

/-- The five title strings `runEngine` recognizes. -/
def recognizedTitles : List String :=
  ["Mestre das Receitas", "Controlador de Gastos", "Trabalhador Honesto",
   "Explorador Beta", "Capitalyx AI"]

/-! ## Rule Evaluation Engine: one pass

Embeds the `for (const ach of achievements)` loop of `runEngine`: every
achievement already carrying `isUnlocked` is skipped (`continue`);
otherwise its progress is computed and, when it reaches 100, one
`unlockUserAchievement(user.uid, ach.id, 100)` write and one success
toast are issued.  The observable outcome of the loop is exactly the
sublist of achievements that get unlocked this pass, in iteration
order. -/

/-- The achievements unlocked by one evaluation pass over the captured
merged array: those whose captured flag is still false and whose computed
progress reaches 100. -/
def runEngineUnlocks (snap : DomainSnapshot) (achievements : List Achievement) :
    List Achievement :=
  achievements.filter fun ach =>
    !ach.isUnlocked && decide ((100 : ℚ) ≤ computeProgress snap ach)

/-- The ledger writes issued by one pass: `unlockUserAchievement` is always
called with progress value `100`. -/
def runEngineWrites (snap : DomainSnapshot) (achievements : List Achievement) :
    List (String × ℚ) :=
  (runEngineUnlocks snap achievements).map fun ach => (ach.id, (100 : ℚ))

/-- The success toasts issued by one pass, one per unlock. -/
def runEngineToasts (snap : DomainSnapshot) (achievements : List Achievement) :
    List String :=
  (runEngineUnlocks snap achievements).map fun ach =>
    "Conquista desbloqueada: " ++ ach.title

/-! ## Catalog Integrity Monitor

Embeds the auto-restore logic of the achievement effect:

    if (!isRestoringRef.current && rawGlobalAchievements.length > 0
        && rawGlobalAchievements.length !== 5) {
        isRestoringRef.current = true;
        restoreDefaultAchievements().finally(() => {
            setTimeout(() => { isRestoringRef.current = false; }, 2000);
        });
    }

The boolean ref is true from the moment a repair is invoked until the
2000 ms timer scheduled by `.finally` fires; this splits into a
`repairing` phase (repair promise pending) and a `cooldown` phase (timer
pending), with `idle` the ref-false phase.  Events: a snapshot observation
of the catalog length (one run of the effect with a user present), the
settling of the repair promise (`success` records whether it fulfilled or
rejected — `.finally` runs either way), and the cooldown timer firing. -/

/-- The phase of the repair guard: `idle` is `isRestoringRef = false`;
`repairing` and `cooldown` are the two stretches of `isRestoringRef = true`. -/
inductive RepairPhase
  | idle
  | repairing
  | cooldown
deriving DecidableEq, Repr

/-- An event observed by the monitor. -/
inductive MonitorEvent
  | snapshot (catalogLen : Nat)
  | settle (success : Bool)
  | cooldownElapsed
deriving DecidableEq, Repr

/-- One monitor step: returns the next phase and whether this step invoked
`restoreDefaultAchievements`.  A snapshot triggers a repair exactly from
`idle` with a non-empty catalog of length other than 5; the promise
settling (fulfilled or rejected) always moves `repairing` to `cooldown`;
the 2000 ms timer moves `cooldown` back to `idle`.  Event/phase pairs that
cannot arise in the source (e.g. a settle while idle) leave the phase
unchanged. -/
def monitorStep : RepairPhase → MonitorEvent → RepairPhase × Bool
  | .idle, .snapshot len =>
      if 0 < len ∧ len ≠ 5 then (.repairing, true) else (.idle, false)
  | .idle, .settle _ => (.idle, false)
  | .idle, .cooldownElapsed => (.idle, false)
  | .repairing, .snapshot _ => (.repairing, false)
  | .repairing, .settle _ => (.cooldown, false)
  | .repairing, .cooldownElapsed => (.repairing, false)
  | .cooldown, .snapshot _ => (.cooldown, false)
  | .cooldown, .settle _ => (.cooldown, false)
  | .cooldown, .cooldownElapsed => (.idle, false)

/-- Run the monitor over an event trace, counting repair invocations. -/
def monitorRun : RepairPhase → List MonitorEvent → RepairPhase × Nat
  | s, [] => (s, 0)
  | s, e :: es =>
      ((monitorRun (monitorStep s e).1 es).1,
       (if (monitorStep s e).2 then 1 else 0) + (monitorRun (monitorStep s e).1 es).2)

/-! ## Debounced scheduling

Embeds the effect's scheduling tail:

    const timer = setTimeout(runEngine, 3000);
    return () => clearTimeout(timer);

Every qualifying update re-runs the effect: the cleanup clears the pending
timer and a new one is scheduled 3000 ms after the update.  Hence, given
the (time-ordered) list of update instants, a timer scheduled by the
update at `u` fires — at `u + 3000` — exactly when no further update
arrives strictly before that deadline.  `debounceFires` computes the
resulting list of evaluation-pass instants. -/

/-- The debounce window of the evaluation engine, in milliseconds. -/
def DEBOUNCE : Nat := 3000

/-- The instants at which the evaluation pass actually runs, for a
time-ordered list of update instants: an update whose successor arrives
within the window is cancelled (its timer is cleared and replaced),
otherwise its timer fires at `u + DEBOUNCE`. -/
def debounceFires : List Nat → List Nat
  | [] => []
  | [u] => [u + DEBOUNCE]
  | u :: v :: rest =>
      if v < u + DEBOUNCE then debounceFires (v :: rest)
      else (u + DEBOUNCE) :: debounceFires (v :: rest)

/-! ## The achievement effect

Embeds the body of the `useEffect` (auth gating and early returns):

    if (!user) return;
    [auto-restore check]
    if (achievements.length === 0) return;
    const timer = setTimeout(runEngine, 3000);

The outcome records whether a repair was invoked on this run, whether an
evaluation pass was scheduled, and the unlocks the scheduled pass would
produce on the captured data. -/

/-- Observable outcome of one run of the achievement effect. -/
structure EffectOutcome where
  repairInvoked : Bool
  passScheduled : Bool
  unlocks : List Achievement
deriving DecidableEq, Repr

/-- One run of the achievement effect, as a function of the current user
(`none` = logged out), the repair guard ref, the raw global catalog
length, the merged achievement array, and the captured snapshot. -/
def achievementEffect (user : Option String) (isRestoring : Bool)
    (rawCatalogLen : Nat) (achievements : List Achievement)
    (snap : DomainSnapshot) : EffectOutcome :=
  match user with
  | none => ⟨false, false, []⟩
  | some _ =>
      let repairInvoked :=
        !isRestoring && decide (0 < rawCatalogLen) && decide (rawCatalogLen ≠ 5)
      if achievements.isEmpty then ⟨repairInvoked, false, []⟩
      else ⟨repairInvoked, true, runEngineUnlocks snap achievements⟩

/-! ## Spec-side comparators

Two definitions written from the specification's words, for refinement
comparison against the source-derived functions above. -/

/-- Modelled from the spec: the progress formula claimed in §4.4 step 2,
keyed on the achievement's condition type with the achievement's own
condition threshold — `min(100, 100 * observed_count / threshold_count)`
for the count-style kinds and 100/0 for the AI boolean kind.  Returns
`none` on the kinds the claim leaves to the no-op branch. -/
def specClaimedProgress (snap : DomainSnapshot) (ach : Achievement) : Option ℚ :=
  match ach.conditionType with
  | some .transaction_count =>
      some (min 100 (100 * (snap.transactions.length : ℚ) / ach.conditionValue.getD 0))
  | some .income_count =>
      some (min 100 (100 * (incomeCount snap : ℚ) / ach.conditionValue.getD 0))
  | some .expense_count =>
      some (min 100 (100 * (expenseCount snap : ℚ) / ach.conditionValue.getD 0))
  | some .ai_usage => some (if hasUsedAI snap then 100 else 0)
  | _ => none

/-- Modelled from the spec: the evaluation pass as §4.4 describes its
idempotency mechanism — before each write, the freshest merged unlocked
flag (`freshUnlocked`) is consulted, and the write is suppressed when it
already reads true. -/
def freshCheckedUnlocks (snap : DomainSnapshot) (captured : List Achievement)
    (freshUnlocked : String → Bool) : List Achievement :=
  captured.filter fun ach =>
    !ach.isUnlocked && decide ((100 : ℚ) ≤ computeProgress snap ach)
      && !freshUnlocked ach.id

/-! ## Concrete fixtures used by witnesses and counterexamples -/

/-- An income transaction with a given id suffix. -/
def sampleIncome (n : Nat) : Transaction :=
  { id := toString n, description := "deposito", amount := 1,
    type := .income, category := "Geral", date := "2024-01-01" }

/-- A snapshot holding exactly 5 income records and empty stats. -/
def snapFive : DomainSnapshot :=
  { transactions := (List.range 5).map sampleIncome, stats := {} }

/-- A snapshot holding exactly 10 income records and empty stats. -/
def snapTen : DomainSnapshot :=
  { transactions := (List.range 10).map sampleIncome, stats := {} }

/-- A locked income-count achievement, title recognized, threshold 5. -/
def achIncome : Achievement :=
  { id := "a1", title := "Mestre das Receitas", description := "5 receitas",
    conditionType := some .income_count, conditionValue := some 5,
    isUnlocked := false }

/-- A locked achievement of the unrecognized `manual` condition kind whose
title nevertheless matches a recognized branch. -/
def achManualTitled : Achievement :=
  { id := "a9", title := "Mestre das Receitas", description := "manual",
    conditionType := some .manual, isUnlocked := false }

/-- A locked achievement whose title matches no branch. -/
def achOther : Achievement :=
  { id := "a7", title := "Colecionador", description := "outra",
    conditionType := some .total_balance, conditionValue := some 1,
    isUnlocked := false }

/-- An already-unlocked achievement. -/
def achDone : Achievement :=
  { id := "a2", title := "Capitalyx AI", description := "IA",
    conditionType := some .ai_usage, isUnlocked := true,
    unlockedAt := some "2024-01-01", progress := 100 }

/-! ## Helper lemmas -/

/-- Counts the cooldown-timer events of a monitor trace. -/
def countCooldownElapsed : List MonitorEvent → Nat
  | [] => 0
  | .cooldownElapsed :: es => countCooldownElapsed es + 1
  | .snapshot _ :: es => countCooldownElapsed es
  | .settle _ :: es => countCooldownElapsed es

/-- The repair budget a phase allows before the next cooldown elapses:
only `idle` can still trigger. -/
def phaseBudget : RepairPhase → Nat
  | .idle => 1
  | .repairing => 0
  | .cooldown => 0

/-- The invocation count of a monitor run is bounded by one initial
repair (available only from `idle`) plus one repair per cooldown-timer
event in the trace. -/
theorem monitorRun_invocations_le (trace : List MonitorEvent) :
    ∀ s : RepairPhase, (monitorRun s trace).2 ≤
      phaseBudget s + countCooldownElapsed trace := by
  induction trace with
  | nil => intro s; simp [monitorRun]
  | cons e es ih =>
    intro s
    have h1 := ih RepairPhase.idle
    have h2 := ih RepairPhase.repairing
    have h3 := ih RepairPhase.cooldown
    simp only [phaseBudget] at h1 h2 h3
    rcases s with _ | _ | _ <;> rcases e with ⟨len⟩ | ⟨b⟩ | _ <;>
      simp [monitorRun, monitorStep, countCooldownElapsed, phaseBudget] <;>
      first
        | omega
        | (split <;> simp <;> omega)

/-- Every fire instant produced from a sorted update list headed by `u`
lies at least one debounce window after `u`. -/
theorem debounceFires_head_lb :
    ∀ (us : List Nat) (u : Nat), List.Chain' (· ≤ ·) (u :: us) →
      ∀ f ∈ debounceFires (u :: us), u + DEBOUNCE ≤ f := by
  intro us
  induction us with
  | nil =>
    intro u _ f hf
    simp only [debounceFires, List.mem_singleton] at hf
    omega
  | cons v rest ih =>
    intro u hchain f hf
    have huv : u ≤ v := (List.chain'_cons.mp hchain).1
    have htail : List.Chain' (· ≤ ·) (v :: rest) := (List.chain'_cons.mp hchain).2
    rw [debounceFires] at hf
    by_cases h : v < u + DEBOUNCE
    · rw [if_pos h] at hf
      have := ih v htail f hf
      omega
    · rw [if_neg h] at hf
      rcases List.mem_cons.mp hf with rfl | hf'
      · omega
      · have := ih v htail f hf'
        omega

/-- Consecutive fire instants of the debounced scheduler are at least one
debounce window apart, for a time-ordered update list. -/
theorem debounceFires_gap :
    ∀ us : List Nat, List.Chain' (· ≤ ·) us →
      List.Chain' (fun a b => a + DEBOUNCE ≤ b) (debounceFires us) := by
  intro us
  induction us with
  | nil => intro _; simp [debounceFires]
  | cons u us ih =>
    intro hchain
    cases us with
    | nil => simp [debounceFires]
    | cons v rest =>
      have huv : u ≤ v := (List.chain'_cons.mp hchain).1
      have htail : List.Chain' (· ≤ ·) (v :: rest) := (List.chain'_cons.mp hchain).2
      rw [debounceFires]
      by_cases h : v < u + DEBOUNCE
      · rw [if_pos h]
        exact ih htail
      · rw [if_neg h]
        rw [List.chain'_cons']
        refine ⟨?_, ih htail⟩
        intro b hb
        have hmem : b ∈ debounceFires (v :: rest) := List.mem_of_mem_head? hb
        have := debounceFires_head_lb rest v htail b hmem
        omega

/-- A burst (every update within one window of its predecessor) collapses
to a single fire, one window after the last update of the burst. -/
theorem debounceFires_burst :
    ∀ (us : List Nat) (u : Nat),
      List.Chain' (fun a b => b < a + DEBOUNCE) (u :: us) →
      debounceFires (u :: us) = [us.getLastD u + DEBOUNCE] := by
  intro us
  induction us with
  | nil => intro u _; simp [debounceFires]
  | cons v rest ih =>
    intro u hchain
    have huv : v < u + DEBOUNCE := (List.chain'_cons.mp hchain).1
    have htail : List.Chain' (fun a b => b < a + DEBOUNCE) (v :: rest) :=
      (List.chain'_cons.mp hchain).2
    rw [debounceFires, if_pos huv, ih v htail, List.getLastD_cons]

/-- An evaluation pass filters the captured array; skipped and filtered
entries are characterized here. -/
theorem runEngineUnlocks_eq_filter_locked (snap : DomainSnapshot)
    (achs : List Achievement) :
    runEngineUnlocks snap achs =
      runEngineUnlocks snap (achs.filter fun a => !a.isUnlocked) := by
  simp only [runEngineUnlocks, List.filter_filter]
  apply List.filter_congr
  intro a _
  cases h : a.isUnlocked <;> simp [h]

/-! ## Claims -/

/-- C6. For all (catalog, ledger) pairs, the merge is deterministic and
total: the merged list has exactly one entry per catalog entry (same
length, and the i-th merged entry is uniquely determined); a catalog entry
with a matching ledger entry (looked up by identifier) carries that
entry's unlocked flag, unlock timestamp and progress; an entry with no
ledger match defaults to locked, no timestamp, progress 0; and
recomputing on unchanged inputs yields an equal result. -/
theorem merge_total_and_deterministic (c : List Achievement)
    (l : List (String × UnlockRecord)) :
    (mergedAchievements c l).length = c.length ∧
    mergedAchievements c l = mergedAchievements c l ∧
    ∀ i : Fin c.length,
      (mergedAchievements c l)[i.val]? = some
        ((l.lookup (c.get i).id).elim
          { c.get i with isUnlocked := false, unlockedAt := none, progress := 0 }
          (fun r =>
            { c.get i with
              isUnlocked := r.isUnlocked
              unlockedAt := r.unlockedAt
              progress := r.progress })) := by
  refine ⟨by simp [mergedAchievements], rfl, ?_⟩
  intro i
  have hi : i.val < c.length := i.isLt
  cases h : List.lookup (c.get i).id l <;>
    simp only [List.get_eq_getElem] at h <;>
    simp [mergedAchievements, List.getElem?_map, List.getElem?_eq_getElem hi,
      List.get_eq_getElem, h]

/-- C3. Achievements whose captured merged record is already unlocked are
skipped entirely by an evaluation pass: the pass outcome (unlocks, ledger
writes, toasts) equals the outcome on the locked entries alone, and every
achievement the pass unlocks had captured flag false — so an unlocked
achievement receives no re-computation, no second unlock write, and no
second toast from any later pass observing it unlocked. -/
theorem unlocked_achievements_skipped (snap : DomainSnapshot)
    (achs : List Achievement) :
    runEngineUnlocks snap achs =
      runEngineUnlocks snap (achs.filter fun a => !a.isUnlocked) ∧
    (runEngineUnlocks snap achs).all (fun a => !a.isUnlocked) = true ∧
    runEngineWrites snap achs =
      runEngineWrites snap (achs.filter fun a => !a.isUnlocked) ∧
    runEngineToasts snap achs =
      runEngineToasts snap (achs.filter fun a => !a.isUnlocked) := by
  refine ⟨runEngineUnlocks_eq_filter_locked snap achs, ?_,
    by simp [runEngineWrites, runEngineUnlocks_eq_filter_locked snap achs],
    by simp [runEngineToasts, runEngineUnlocks_eq_filter_locked snap achs]⟩
  simp only [List.all_eq_true, runEngineUnlocks, List.mem_filter, Bool.and_eq_true]
  intro a ha
  exact ha.2.1

/-- C10. With no user identity present the achievement effect does
nothing: no repair invocation, no scheduled pass, no unlock; and with an
empty merged achievement set no evaluation pass is scheduled and no unlock
can occur, whoever is logged in. -/
theorem no_user_no_writes_no_repair :
    (∀ (g : Bool) (len : Nat) (achs : List Achievement) (snap : DomainSnapshot),
      achievementEffect none g len achs snap =
        ⟨false, false, []⟩) ∧
    (∀ (u : Option String) (g : Bool) (len : Nat) (snap : DomainSnapshot),
      (achievementEffect u g len [] snap).passScheduled = false ∧
      (achievementEffect u g len [] snap).unlocks = []) := by
  constructor
  · intro g len achs snap; rfl
  · intro u g len snap
    cases u <;> simp [achievementEffect]

/-- C5. The repair action triggers exactly on an idle-phase snapshot whose
observed catalog is non-empty and of size different from the expected
canonical size 5; while a repair or its cooldown is active a snapshot
never triggers; and an empty observed catalog never triggers from any
phase. -/
theorem repair_trigger_condition :
    (∀ len : Nat, (monitorStep RepairPhase.idle (MonitorEvent.snapshot len)).2 =
      (decide (0 < len) && decide (len ≠ 5))) ∧
    (∀ len : Nat,
      (monitorStep RepairPhase.repairing (MonitorEvent.snapshot len)).2 = false ∧
      (monitorStep RepairPhase.cooldown (MonitorEvent.snapshot len)).2 = false) ∧
    (∀ s : RepairPhase, (monitorStep s (MonitorEvent.snapshot 0)).2 = false) := by
  refine ⟨?_, ?_, ?_⟩
  · intro len
    by_cases h : 0 < len ∧ len ≠ 5
    · simp [monitorStep, h, h.1, h.2]
    · rw [Decidable.not_and_iff_or_not] at h
      rcases h with h | h <;> simp [monitorStep, h]
  · intro len; exact ⟨rfl, rfl⟩
  · intro s; cases s <;> simp [monitorStep]

/-- C4. A settled repair, fulfilled or rejected, moves the monitor to the
cooldown phase unconditionally (the `.finally` continuation runs either
way), so a failed repair is not retried immediately; and over any event
trace the number of repair invocations is at most one plus the number of
elapsed cooldown timers — at most once per cooldown period however many
drifting snapshots arrive. -/
theorem repair_at_most_once_per_cooldown :
    (∀ b : Bool, monitorStep RepairPhase.repairing (MonitorEvent.settle b) =
      (RepairPhase.cooldown, false)) ∧
    (∀ (s : RepairPhase) (trace : List MonitorEvent),
      (monitorRun s trace).2 ≤
        (if s = RepairPhase.idle then 1 else 0) + countCooldownElapsed trace) := by
  refine ⟨fun b => rfl, fun s trace => ?_⟩
  have h := monitorRun_invocations_le trace s
  cases s <;> simpa [phaseBudget] using h

/-- C7. Burst coalescing of the debounced evaluation engine: over any
time-ordered sequence of qualifying updates, consecutive evaluation-pass
instants are at least one debounce window apart (so at most one pass runs
per window), and a burst of updates each arriving within one window of its
predecessor collapses to exactly one pass, scheduled by the most recent
update — each update replaces the pending timer rather than stacking a
new one. -/
theorem debounce_burst_coalescing :
    (∀ us : List Nat, List.Chain' (· ≤ ·) us →
      List.Chain' (fun a b => a + DEBOUNCE ≤ b) (debounceFires us)) ∧
    (∀ (u : Nat) (us : List Nat),
      List.Chain' (fun a b => b < a + DEBOUNCE) (u :: us) →
      debounceFires (u :: us) = [us.getLastD u + DEBOUNCE]) :=
  ⟨debounceFires_gap, fun u us h => debounceFires_burst us u h⟩

/-- Witness for C7: a concrete four-update schedule has its fires a full
window apart, and a concrete three-update burst yields the single fire
`2500 + 3000`. -/
theorem debounce_burst_coalescing_witness :
    List.Chain' (fun a b => a + DEBOUNCE ≤ b)
      (debounceFires [0, 1000, 2500, 9000]) ∧
    debounceFires [0, 1000, 2500] = [[1000, 2500].getLastD 0 + DEBOUNCE] :=
  ⟨debounce_burst_coalescing.1 [0, 1000, 2500, 9000]
      (by norm_num [List.chain'_cons]),
   debounce_burst_coalescing.2 0 [1000, 2500]
      (by norm_num [List.chain'_cons, DEBOUNCE])⟩

/-- C8. An evaluation pass never writes a progress lower than any prior
persisted value: every ledger write it issues carries progress 100, which
is at least any prior value in the 0–100 range of `UnlockRecord.progress`. -/
theorem unlock_write_never_lowers_progress (snap : DomainSnapshot)
    (achs : List Achievement) (prior : ℚ) (hprior : prior ≤ 100) :
    (runEngineWrites snap achs).all (fun w => decide (prior ≤ w.2)) = true := by
  simp only [runEngineWrites, List.all_eq_true, List.mem_map]
  rintro w ⟨a, ha, rfl⟩
  simpa using hprior

/-- Witness for C8: with prior persisted progress 0, every write of a
concrete pass is at least 0. -/
theorem unlock_write_never_lowers_progress_witness :
    (runEngineWrites snapFive [achIncome]).all
      (fun w => decide ((0 : ℚ) ≤ w.2)) = true :=
  unlock_write_never_lowers_progress snapFive [achIncome] 0 (by decide)

/-- C1 counterexample: for the income-count achievement `achIncome`
(condition threshold 5) on a snapshot with 10 income records, the claimed
formula `min(100, 100·count/threshold)` yields 100 while `runEngine`
computes `(count/5)·100 = 200` — the code neither clamps at 100 nor reads
the condition threshold, so the claimed progress differs from the computed
one. -/
theorem progress_formula_counterexample :
    specClaimedProgress snapTen achIncome = some 100 ∧
    computeProgress snapTen achIncome = 200 ∧
    specClaimedProgress snapTen achIncome ≠
      some (computeProgress snapTen achIncome) := by
  have h10 : incomeCount snapTen = 10 := by decide
  have hcomp : computeProgress snapTen achIncome = 200 := by
    norm_num [computeProgress, achIncome, h10]
  have hspec : specClaimedProgress snapTen achIncome = some 100 := by
    norm_num [specClaimedProgress, achIncome, h10, min_def]
  refine ⟨hspec, hcomp, ?_⟩
  rw [hspec, hcomp]
  intro hcontra
  norm_num at hcontra

/-- C1 amended: `runEngine` keys progress on the achievement title alone —
the computed progress is invariant under changing the condition type and
threshold; the two count-style titles get `(count/5)·100` (fixed divisor 5,
no clamp), the three boolean titles get 100/0 from their predicate. -/
theorem progress_keyed_on_title (snap : DomainSnapshot) (ach : Achievement)
    (ct : Option AchievementCondition) (cv : Option ℚ) :
    computeProgress snap { ach with conditionType := ct, conditionValue := cv } =
      computeProgress snap ach ∧
    (ach.title = "Mestre das Receitas" →
      computeProgress snap ach = (incomeCount snap : ℚ) / 5 * 100) ∧
    (ach.title = "Controlador de Gastos" →
      computeProgress snap ach = (expenseCount snap : ℚ) / 5 * 100) ∧
    (ach.title = "Trabalhador Honesto" →
      computeProgress snap ach = if hasSalary snap then 100 else 0) ∧
    (ach.title = "Explorador Beta" →
      computeProgress snap ach = if hasUsedBeta snap then 100 else 0) ∧
    (ach.title = "Capitalyx AI" →
      computeProgress snap ach = if hasUsedAI snap then 100 else 0) := by
  refine ⟨rfl, ?_, ?_, ?_, ?_, ?_⟩ <;> intro h <;> simp [computeProgress, h]

/-- Witness for C1's amended claim: at the concrete income achievement the
progress is condition-field-independent and follows the unclamped
count-over-5 formula. -/
theorem progress_keyed_on_title_witness :
    computeProgress snapTen
        { achIncome with conditionType := none, conditionValue := none } =
      computeProgress snapTen achIncome ∧
    computeProgress snapTen achIncome = (incomeCount snapTen : ℚ) / 5 * 100 :=
  ⟨(progress_keyed_on_title snapTen achIncome none none).1,
   (progress_keyed_on_title snapTen achIncome none none).2.1 rfl⟩

/-- C2 counterexample: a pass whose captured merged array still shows
`achIncome` locked issues the unlock write even when the freshest unlocked
flag (here: constantly true) already reads true; the spec's
freshest-flag-checked pass issues none, so the code does not implement the
claimed fresh check and a second write is issued in that situation. -/
theorem fresh_flag_check_counterexample :
    runEngineUnlocks snapFive [achIncome] = [achIncome] ∧
    freshCheckedUnlocks snapFive [achIncome] (fun _ => true) = [] := by
  have h5 : incomeCount snapFive = 5 := by decide
  have h : computeProgress snapFive achIncome = 100 := by
    norm_num [computeProgress, achIncome, h5]
  have hd : decide ((100 : ℚ) ≤ computeProgress snapFive achIncome) = true := by
    rw [h]; decide
  have hu : achIncome.isUnlocked = false := rfl
  constructor <;>
    simp [runEngineUnlocks, freshCheckedUnlocks, hd, hu]

/-- C2 amended: the guard before each write is the unlocked flag captured
in the merged array at the start of the pass (no fresher flag is
consulted); within one pass each distinct achievement id is written at
most once, and every written achievement had captured flag false. -/
theorem unlock_guard_uses_captured_flag (snap : DomainSnapshot)
    (achs : List Achievement) :
    ((achs.map (fun a => a.id)).Nodup →
      ((runEngineUnlocks snap achs).map (fun a => a.id)).Nodup) ∧
    (runEngineUnlocks snap achs).all (fun a => !a.isUnlocked) = true := by
  constructor
  · intro h
    exact h.sublist (List.Sublist.map _ (List.filter_sublist achs))
  · simp only [List.all_eq_true, runEngineUnlocks, List.mem_filter,
      Bool.and_eq_true]
    intro a ha
    exact ha.2.1

/-- Witness for C2's amended claim: a concrete pass over distinct ids
issues writes with distinct ids. -/
theorem unlock_guard_uses_captured_flag_witness :
    ((runEngineUnlocks snapFive [achIncome]).map (fun a => a.id)).Nodup :=
  (unlock_guard_uses_captured_flag snapFive [achIncome]).1 (by decide)

/-- C9 counterexample: `achManualTitled` has the unrecognized condition
kind `manual`, yet because its title matches the income branch the pass
computes progress 100 for it and issues an unlock write — contradicting
the claim that an achievement with an unrecognized condition kind gets no
write. -/
theorem unrecognized_condition_counterexample :
    achManualTitled.conditionType = some AchievementCondition.manual ∧
    runEngineWrites snapFive [achManualTitled] = [("a9", (100 : ℚ))] := by
  have h5 : incomeCount snapFive = 5 := by decide
  have h : computeProgress snapFive achManualTitled = 100 := by
    norm_num [computeProgress, achManualTitled, h5]
  have hd : decide ((100 : ℚ) ≤ computeProgress snapFive achManualTitled) = true := by
    rw [h]; decide
  have hu : achManualTitled.isUnlocked = false := rfl
  refine ⟨rfl, ?_⟩
  simp [runEngineWrites, runEngineUnlocks, hd, hu]
  rfl

/-- C9 amended: recognition is keyed on the title, not the condition kind:
an achievement whose title matches none of the five recognized titles
keeps computed progress 0 and receives no unlock write, and its presence
does not disturb the pass outcome for the remaining achievements — the
unmatched branch is a silent no-op, never an error. -/
theorem unrecognized_title_is_noop (snap : DomainSnapshot)
    (l1 l2 : List Achievement) (ach : Achievement)
    (h : ach.title ∉ recognizedTitles) :
    computeProgress snap ach = 0 ∧
    runEngineUnlocks snap (l1 ++ ach :: l2) = runEngineUnlocks snap (l1 ++ l2) := by
  simp only [recognizedTitles, List.mem_cons, List.not_mem_nil, or_false,
    not_or] at h
  have hp : computeProgress snap ach = 0 := by
    simp [computeProgress, h.1, h.2.1, h.2.2.1, h.2.2.2.1, h.2.2.2.2]
  have hc : decide ((100 : ℚ) ≤ (0 : ℚ)) = false := by decide
  have hcond : (!ach.isUnlocked &&
      decide ((100 : ℚ) ≤ computeProgress snap ach)) = false := by
    rw [hp, hc, Bool.and_false]
  refine ⟨hp, ?_⟩
  simp [runEngineUnlocks, List.filter_append, List.filter_cons, hcond]

/-- Witness for C9's amended claim: the concrete unrecognized-title
achievement computes progress 0 and dropping it leaves a concrete pass
outcome unchanged. -/
theorem unrecognized_title_is_noop_witness :
    computeProgress snapFive achOther = 0 ∧
    runEngineUnlocks snapFive [achOther, achIncome] =
      runEngineUnlocks snapFive [achIncome] :=
  unrecognized_title_is_noop snapFive [] [achIncome] achOther (by decide)

end Capitalyx
